import Mathlib

/-!
# Verification of the Mafia game session core

Shallow embedding of the room/player data model and game-session operations of
the MafiaGame repository (`src/firebase/roomService.ts`, here the version whose
functions are `generateRoomCode`, `calcWinner`, `buildRoles`, `startGame`,
`submitNightAction`, `resolveNight`, `startVote`, `submitVote`, `resolveVote`,
plus the host auto-advance `tick` of the Room page).

Modelling conventions:
* Firestore document ids are `Nat`.
* `undefined` / absent object fields are `Option.none` / a `false` flag.
* A Firestore map object (`vote.votes`, the tally object) is an
  insertion-ordered association list, as `Object.entries` iterates keys in
  insertion order; writing an existing key updates in place, a fresh key
  appends.
* `updateDoc` field writes on a roster are a `List.map` that rewrites the
  matching player's fields; `writeBatch` updates merge field-wise.
* Functions that `throw` return `Except GameError _`; every state write in the
  source happens after the guards, so an error faithfully means "no change".
* `Math.random()`-driven shuffling is parametrised by an arbitrary stream
  `rnd : Nat → Nat` of index choices: `shuffle` performs the source's
  Fisher-Yates loop with `j = rnd i % (i+1)` in place of
  `Math.floor(Math.random() * (i + 1))`.
* `Date.now()` is an explicit `now : Nat` argument (milliseconds).
-/

/-- `role` values; `unknown` is the pre-assignment placeholder. -/
inductive Role where
  | unknown | citizen | mafia | don | doctor | komissar
deriving DecidableEq, Repr

/-- `isMafiaRole` from roomService: mafia-aligned roles are `mafia` and `don`. -/
def isMafiaRole (r : Role) : Bool :=
  r == Role.mafia || r == Role.don

/-- The two winning factions of `calcWinner` (`"town"` / `"mafia"`). -/
inductive Faction where
  | town | mafia
deriving DecidableEq, Repr

/-- Room `status` field. -/
inductive Status where
  | lobby | playing | ended
deriving DecidableEq, Repr

/-- Room `phase` field. -/
inductive Phase where
  | lobby | night | day | vote | ended
deriving DecidableEq, Repr

/-- `private.lastCheckResult` written for the komissar by `resolveNight`. -/
structure CheckResult where
  targetId : Nat
  isMafia : Bool
deriving DecidableEq, Repr

/-- A player document (the fields the session core reads or writes). -/
structure Player where
  id : Nat
  role : Role := Role.unknown
  isAlive : Bool := true
  isReady : Bool := false
  isConnected : Bool := true
  isKicked : Bool := false
  nightSubmitted : Bool := false
  voteSubmitted : Bool := false
  lastCheckResult : Option CheckResult := none
deriving DecidableEq, Repr

/-- The transient `night` scratch object on the room document.  After a
resolution the source replaces it by a fresh object carrying only
`resolvedAt` / `lastKilledPlayerId` / `lastSavedPlayerId`; absent fields are
`none` / `false` here, and the `resolvedAt` server timestamp is the `resolved`
flag. -/
structure NightState where
  killTargetId : Option Nat := none
  killBy : Option Nat := none
  submittedKill : Bool := false
  saveTargetId : Option Nat := none
  saveBy : Option Nat := none
  submittedSave : Bool := false
  checkTargetId : Option Nat := none
  checkBy : Option Nat := none
  submittedCheck : Bool := false
  resolved : Bool := false
  lastKilledPlayerId : Option Nat := none
  lastSavedPlayerId : Option Nat := none
deriving DecidableEq, Repr

/-- The transient `vote` scratch object on the room document.  `votes` is the
`voterId → targetId` map object, kept in key-insertion order. -/
structure VoteState where
  started : Bool := false
  votes : List (Nat × Nat) := []
  resolved : Bool := false
  eliminatedPlayerId : Option Nat := none
deriving DecidableEq, Repr

/-- Room `settings` (seconds), defaults as written by `createRoom`. -/
structure Settings where
  nightSec : Nat := 60
  daySec : Nat := 60
  voteSec : Nat := 45
deriving DecidableEq, Repr

/-- A room document together with its player subcollection, the roster listed
in `createdAt` order exactly as every query in the source orders it. -/
structure Room where
  status : Status := Status.lobby
  phase : Phase := Phase.lobby
  dayNumber : Nat := 0
  phaseEndsAtMs : Option Nat := none
  winner : Option Faction := none
  night : NightState := {}
  vote : VoteState := {}
  settings : Settings := {}
  players : List Player := []
deriving DecidableEq, Repr

/-- The typed failures of the session operations (§7 of the spec): the thrown
errors "Kamida 4 ta o‘yinchi kerak", "Siz actionni yuborgan siz" /
"Siz ovoz berib bo‘lgansiz", and "Actor/Voter/Room topilmadi". -/
inductive GameError where
  | invalidPlayerCount
  | actionAlreadySubmitted
  | unknownEntity
deriving DecidableEq, Repr

/-- `calcWinner` from roomService: alive mafia count vs the rest. -/
def calcWinner (players : List Player) : Option Faction :=
  let alive := players.filter (fun p => p.isAlive)
  let mafiaAlive := (alive.filter (fun p => isMafiaRole p.role)).length
  let townAlive := alive.length - mafiaAlive
  if mafiaAlive = 0 then some Faction.town
  else if mafiaAlive ≥ townAlive then some Faction.mafia
  else none

/-- `computeEndsAtMs`: `Date.now() + durationSec * 1000`. -/
def computeEndsAtMs (now durationSec : Nat) : Nat :=
  now + durationSec * 1000

/-- One Fisher-Yates swap on a list: exchange positions `i` and `j`
(no-op when either index is out of range, matching array indexing). -/
def swapList {α : Type} (l : List α) (i j : Nat) : List α :=
  match l.get? i, l.get? j with
  | some x, some y => (l.set i y).set j x
  | _, _ => l

/-- `shuffle` from roomService: the loop
`for (i = a.length - 1; i > 0; i--) swap(a[i], a[rnd])`, with the random draw
for index `i` supplied as `rnd i % (i+1)`.  The first argument is the loop
counter `i`. -/
def fisherYates {α : Type} (rnd : Nat → Nat) : Nat → List α → List α
  | 0, a => a
  | i + 1, a => fisherYates rnd i (swapList a (i + 1) (rnd (i + 1) % (i + 2)))

/-- `shuffle(arr)` with the random stream made explicit. -/
def shuffle {α : Type} (rnd : Nat → Nat) (l : List α) : List α :=
  fisherYates rnd (l.length - 1) l

/-- The mafia count chosen by `buildRoles`: 1, then 2 from 6 players, 3 from 9. -/
def mafiaCountOf (count : Nat) : Nat :=
  if count ≥ 9 then 3 else if count ≥ 6 then 2 else 1

/-- The role list of `buildRoles` before its final shuffle: `mafiaCount` mafia,
a don iff `count ≥ 9`, one komissar, one doctor, then citizens until the list
reaches `count` entries (the `while (roles.length < count)` loop). -/
def buildRolesBase (count : Nat) : List Role :=
  let roles := List.replicate (mafiaCountOf count) Role.mafia
  let roles := if count ≥ 9 then roles ++ [Role.don] else roles
  let roles := roles ++ [Role.komissar, Role.doctor]
  roles ++ List.replicate (count - roles.length) Role.citizen

/-- `buildRoles(count)`: the policy list, shuffled. -/
def buildRoles (rnd : Nat → Nat) (count : Nat) : List Role :=
  shuffle rnd (buildRolesBase count)

/-- The `killedPlayerId` computation of `resolveNight`:
`if (killTargetId && killTargetId !== saveTargetId) killedPlayerId = killTargetId`. -/
def killedOf (n : NightState) : Option Nat :=
  match n.killTargetId with
  | some k => if n.saveTargetId = some k then none else some k
  | none => none

/-- The komissar step of `resolveNight`: when `checkTargetId && checkBy` and
the target is on the roster, write `private.lastCheckResult` on the checking
player's document (and on no other document). -/
def applyCheck (n : NightState) (players : List Player) : List Player :=
  match n.checkTargetId, n.checkBy with
  | some t, some b =>
    match players.find? (fun p => p.id == t) with
    | some target =>
      players.map (fun p =>
        if p.id == b then
          { p with lastCheckResult := some ⟨t, isMafiaRole target.role⟩ }
        else p)
    | none => players
  | _, _ => players

/-- `resolveNight(roomId, dayDurationSec)`: komissar result, death
determination, `nightSubmitted` reset, win evaluation, then the committed
phase transition (ended, or day with `dayNumber + 1`). -/
def resolveNight (now daySec : Nat) (r : Room) : Room :=
  let night := r.night
  let players := r.players
  let players1 := applyCheck night players
  let killed := killedOf night
  let players2 := players1.map (fun p =>
    let p := if killed = some p.id then { p with isAlive := false } else p
    { p with nightSubmitted := false })
  let playersAfter := players.map (fun p =>
    if killed = some p.id then { p with isAlive := false } else p)
  let winner := calcWinner playersAfter
  let nightRec : NightState :=
    { resolved := true, lastKilledPlayerId := killed,
      lastSavedPlayerId := night.saveTargetId }
  match winner with
  | some w =>
    { r with status := Status.ended, winner := some w, phase := Phase.ended,
             phaseEndsAtMs := none, night := nightRec, vote := {},
             players := players2 }
  | none =>
    { r with phase := Phase.day,
             phaseEndsAtMs := some (computeEndsAtMs now daySec),
             dayNumber := r.dayNumber + 1, night := nightRec, vote := {},
             players := players2 }

/-- `startVote(roomId, voteDurationSec)`: reset every `voteSubmitted`, move to
the vote phase with a fresh `vote` object (`votes: {}`, `resolved: false`). -/
def startVote (now voteSec : Nat) (r : Room) : Room :=
  { r with players := r.players.map (fun p => { p with voteSubmitted := false }),
           phase := Phase.vote,
           phaseEndsAtMs := some (computeEndsAtMs now voteSec),
           vote := { started := true, votes := [], resolved := false,
                     eliminatedPlayerId := none } }

/-- Write `vote.votes.<voterId> = targetId` on the votes map object. -/
def setVote (votes : List (Nat × Nat)) (voterId targetId : Nat) :
    List (Nat × Nat) :=
  if votes.any (fun e => e.1 == voterId) then
    votes.map (fun e => if e.1 == voterId then (voterId, targetId) else e)
  else votes ++ [(voterId, targetId)]

/-- `submitNightAction`: reject a missing actor and a resubmission
(`actor.nightSubmitted`), otherwise write the role's scratch fields and lock
the actor. -/
def submitNightAction (r : Room) (role : Role) (actorId targetId : Nat) :
    Except GameError Room :=
  match r.players.find? (fun p => p.id == actorId) with
  | none => Except.error GameError.unknownEntity
  | some actor =>
    if actor.nightSubmitted then Except.error GameError.actionAlreadySubmitted
    else
      let n := r.night
      let n := if role = Role.mafia ∨ role = Role.don then
        { n with killTargetId := some targetId, killBy := some actorId,
                 submittedKill := true } else n
      let n := if role = Role.doctor then
        { n with saveTargetId := some targetId, saveBy := some actorId,
                 submittedSave := true } else n
      let n := if role = Role.komissar then
        { n with checkTargetId := some targetId, checkBy := some actorId,
                 submittedCheck := true } else n
      Except.ok { r with
        night := n,
        players := r.players.map (fun p =>
          if p.id == actorId then { p with nightSubmitted := true } else p) }

/-- `submitVote`: reject a missing voter and a resubmission
(`voter.voteSubmitted`), otherwise record the vote and lock the voter.  No
aliveness condition appears anywhere in the source function. -/
def submitVote (r : Room) (voterId targetId : Nat) : Except GameError Room :=
  match r.players.find? (fun p => p.id == voterId) with
  | none => Except.error GameError.unknownEntity
  | some voter =>
    if voter.voteSubmitted then Except.error GameError.actionAlreadySubmitted
    else
      Except.ok { r with
        vote := { r.vote with votes := setVote r.vote.votes voterId targetId },
        players := r.players.map (fun p =>
          if p.id == voterId then { p with voteSubmitted := true } else p) }

/-- One `tally[targetId] = (tally[targetId] || 0) + 1` step on the tally map
object of `resolveVote`. -/
def addTally (acc : List (Nat × Nat)) (target : Nat) : List (Nat × Nat) :=
  if acc.any (fun e => e.1 == target) then
    acc.map (fun e => if e.1 == target then (e.1, e.2 + 1) else e)
  else acc ++ [(target, 1)]

/-- The tally loop of `resolveVote`: walk the vote entries, skip any vote whose
voter or target is not in the alive id set, count the rest by target. -/
def buildTally (aliveIds : List Nat) (votes : List (Nat × Nat)) :
    List (Nat × Nat) :=
  votes.foldl (fun acc vt =>
    if vt.1 ∈ aliveIds ∧ vt.2 ∈ aliveIds then addTally acc vt.2 else acc) []

/-- One step of the maximum/tie scan of `resolveVote` over a tally entry,
on the state `(max, eliminatedId, tie)`. -/
def tallyStep (s : Nat × Option Nat × Bool) (e : Nat × Nat) :
    Nat × Option Nat × Bool :=
  if e.2 > s.1 then (e.2, some e.1, false)
  else if e.2 = s.1 ∧ e.2 ≠ 0 then (s.1, s.2.1, true)
  else s

/-- The full maximum/tie scan, starting from `max = 0`, `eliminatedId = null`,
`tie = false`. -/
def tallyLoop (entries : List (Nat × Nat)) : Nat × Option Nat × Bool :=
  entries.foldl tallyStep (0, none, false)

/-- `eliminatedId` as computed by `resolveVote` (`if (tie) eliminatedId = null`). -/
def eliminatedOf (aliveIds : List Nat) (votes : List (Nat × Nat)) : Option Nat :=
  let s := tallyLoop (buildTally aliveIds votes)
  if s.2.2 then none else s.2.1

/-- `resolveVote(roomId, nightDurationSec)`: tally, elimination,
`voteSubmitted` reset, win evaluation, then the committed phase transition
(ended, or night with a fresh night scratch; the `votes` map itself is kept on
the room until the next `startVote`). -/
def resolveVote (now nightSec : Nat) (r : Room) : Room :=
  let players := r.players
  let aliveIds := (players.filter (fun p => p.isAlive)).map (fun p => p.id)
  let eliminated := eliminatedOf aliveIds r.vote.votes
  let players2 := players.map (fun p =>
    let p := if eliminated = some p.id then { p with isAlive := false } else p
    { p with voteSubmitted := false })
  let playersAfter := players.map (fun p =>
    if eliminated = some p.id then { p with isAlive := false } else p)
  let winner := calcWinner playersAfter
  let voteRec : VoteState :=
    { r.vote with resolved := true, eliminatedPlayerId := eliminated }
  match winner with
  | some w =>
    { r with status := Status.ended, winner := some w, phase := Phase.ended,
             phaseEndsAtMs := none, vote := voteRec, night := {},
             players := players2 }
  | none =>
    { r with phase := Phase.night,
             phaseEndsAtMs := some (computeEndsAtMs now nightSec),
             night := {}, vote := voteRec, players := players2 }

/-- `startGame(roomId, nightDurationSec)`: at least four players, build and
shuffle the role list, shuffle the roster, pair by index, reset every player's
per-game fields, and commit the playing/night state. -/
def startGame (rndRoles rndPlayers : Nat → Nat) (now nightSec : Nat)
    (r : Room) : Except GameError Room :=
  if r.players.length < 4 then Except.error GameError.invalidPlayerCount
  else
    let roles := buildRoles rndRoles r.players.length
    let shuffled := shuffle rndPlayers r.players
    let pairs := shuffled.zip roles
    let players' := r.players.map (fun p =>
      match pairs.find? (fun pr => pr.1.id == p.id) with
      | some pr =>
        { p with role := pr.2, isAlive := true, isReady := false,
                 isKicked := false, nightSubmitted := false,
                 voteSubmitted := false, lastCheckResult := none }
      | none => p)
    Except.ok { r with status := Status.playing, phase := Phase.night,
                       dayNumber := 0, winner := none, night := {}, vote := {},
                       phaseEndsAtMs := some (computeEndsAtMs now nightSec),
                       players := players' }

/-- The host auto-advance `tick` of the Room page.  The client-local
`autoLockRef` holds `done-${phase}-${phaseEndsAtMs}` for the last instance it
fired for, modelled as `Option (Phase × Nat)`.  The tick returns unchanged
unless the room is playing, carries a deadline, the lock is not already held
for the current `(phase, deadline)` instance, and `Date.now() >=
phaseEndsAtMs`; it then marks the instance done and runs the resolution of the
current phase (`DAY_SEC = 60`, `VOTE_SEC = 45`, `NIGHT_SEC = 60` are the page
constants passed through). -/
def tick (daySec voteSec nightSec : Nat) (lock : Option (Phase × Nat))
    (now : Nat) (r : Room) : Option (Phase × Nat) × Room :=
  if r.status ≠ Status.playing then (lock, r)
  else
    match r.phaseEndsAtMs with
    | none => (lock, r)
    | some d =>
      if lock = some (r.phase, d) then (lock, r)
      else if now < d then (lock, r)
      else
        let lock' := some (r.phase, d)
        match r.phase with
        | Phase.night => (lock', resolveNight now daySec r)
        | Phase.day => (lock', startVote now voteSec r)
        | Phase.vote => (lock', resolveVote now nightSec r)
        | _ => (lock', r)

/-- A freshly joined player document, as written by `createRoom` / `joinRoom`. -/
def newPlayer (pid : Nat) : Player :=
  { id := pid }

/-- `createRoom`: a lobby room with default settings whose roster holds the
creating player. -/
def createRoom (ownerId : Nat) : Room :=
  { players := [newPlayer ownerId] }

/-- The operations a client can perform on a room, as invocable through the
repository's own call sites: the resolutions run only inside the host `tick`;
`startGame` runs only from the start button, which the Room page disables
unless `room.status === "lobby"`; the night-action and vote panels render only
while `status === "playing"` in the matching phase; joining, kicking, ready
toggling and settings edits are unguarded roster/settings writes. -/
inductive Op where
  | tickOp (lock : Option (Phase × Nat)) (now : Nat)
  | startGameOp (rndRoles rndPlayers : Nat → Nat) (now nightSec : Nat)
  | submitNightOp (role : Role) (actorId targetId : Nat)
  | submitVoteOp (voterId targetId : Nat)
  | joinOp (pid : Nat)
  | kickOp (pid : Nat)
  | readyOp (pid : Nat) (b : Bool)
  | settingsOp (s : Settings)

/-- The state change an operation commits; a thrown error commits nothing. -/
def step (op : Op) (r : Room) : Room :=
  match op with
  | Op.tickOp lock now => (tick 60 45 60 lock now r).2
  | Op.startGameOp rr rp now ns =>
    if r.status = Status.lobby then
      match startGame rr rp now ns r with
      | Except.ok r' => r'
      | Except.error _ => r
    else r
  | Op.submitNightOp role a t =>
    if r.status = Status.playing ∧ r.phase = Phase.night then
      match submitNightAction r role a t with
      | Except.ok r' => r'
      | Except.error _ => r
    else r
  | Op.submitVoteOp v t =>
    if r.status = Status.playing ∧ r.phase = Phase.vote then
      match submitVote r v t with
      | Except.ok r' => r'
      | Except.error _ => r
    else r
  | Op.joinOp pid => { r with players := r.players ++ [newPlayer pid] }
  | Op.kickOp pid =>
    { r with players := r.players.map (fun p =>
        if p.id == pid then { p with isKicked := true, isConnected := false }
        else p) }
  | Op.readyOp pid b =>
    { r with players := r.players.map (fun p =>
        if p.id == pid then { p with isReady := b } else p) }
  | Op.settingsOp s => { r with settings := s }

/-- The ended-is-terminal room invariant: whenever `winner` is set, the room
has been committed as ended. -/
def endedInv (r : Room) : Prop :=
  r.winner.isSome → r.status = Status.ended ∧ r.phase = Phase.ended

/-! ## Basic structural lemmas -/

/-- `killedOf` characterised: someone is killed exactly when a kill target is
present and differs from the save target. -/
theorem killedOf_eq_some (n : NightState) (x : Nat) :
    killedOf n = some x ↔
      (n.killTargetId = some x ∧ n.saveTargetId ≠ some x) := by
  unfold killedOf
  cases hk : n.killTargetId with
  | none => simp
  | some k =>
    by_cases hs : n.saveTargetId = some k
    · simp only [hs, if_pos rfl]
      constructor
      · intro h; cases h
      · rintro ⟨hkx, hsx⟩
        cases hkx
        exact absurd rfl hsx
    · simp only [if_neg hs]
      constructor
      · rintro h
        cases h
        exact ⟨rfl, hs⟩
      · rintro ⟨hkx, _⟩
        exact hkx

/-- `applyCheck` only rewrites `lastCheckResult`: any projection of a player
through id and aliveness is untouched. -/
theorem applyCheck_map_proj {β : Type} (n : NightState) (ps : List Player)
    (f : Nat → Bool → β) :
    (applyCheck n ps).map (fun p => f p.id p.isAlive)
      = ps.map (fun p => f p.id p.isAlive) := by
  unfold applyCheck
  split
  next t b _ _ =>
    split
    next target _ =>
      rw [List.map_map]
      refine List.map_congr_left ?_
      intro p _
      by_cases h : p.id = b <;> simp [Function.comp, h]
    next => rfl
  next => rfl

/-- The roster committed by `resolveNight`: the komissar write, then the kill
and the `nightSubmitted` reset, identical in the ended and the day branch. -/
theorem resolveNight_players (now daySec : Nat) (r : Room) :
    (resolveNight now daySec r).players
      = (applyCheck r.night r.players).map (fun p =>
          { (if killedOf r.night = some p.id then { p with isAlive := false }
             else p) with nightSubmitted := false }) := by
  unfold resolveNight
  dsimp only
  split <;> rfl

/-- The night record committed by `resolveNight` carries only the resolution
timestamp and the killed/saved ids, in both branches. -/
theorem resolveNight_night (now daySec : Nat) (r : Room) :
    (resolveNight now daySec r).night
      = { resolved := true, lastKilledPlayerId := killedOf r.night,
          lastSavedPlayerId := r.night.saveTargetId } := by
  unfold resolveNight
  dsimp only
  split <;> rfl

/-- `resolveNight` clears the vote scratch in both branches. -/
theorem resolveNight_vote (now daySec : Nat) (r : Room) :
    (resolveNight now daySec r).vote = {} := by
  unfold resolveNight
  dsimp only
  split <;> rfl

/-- The roster committed by `resolveVote`: elimination plus the
`voteSubmitted` reset, identical in both branches. -/
theorem resolveVote_players (now nightSec : Nat) (r : Room) :
    (resolveVote now nightSec r).players
      = r.players.map (fun p =>
          { (if eliminatedOf ((r.players.filter (fun q => q.isAlive)).map
                 (fun q => q.id)) r.vote.votes = some p.id
             then { p with isAlive := false } else p)
            with voteSubmitted := false }) := by
  unfold resolveVote
  dsimp only
  split <;> rfl

/-- `resolveVote` records the computed elimination on the vote scratch, in
both branches. -/
theorem resolveVote_eliminated (now nightSec : Nat) (r : Room) :
    (resolveVote now nightSec r).vote.eliminatedPlayerId
      = eliminatedOf ((r.players.filter (fun q => q.isAlive)).map
          (fun q => q.id)) r.vote.votes := by
  unfold resolveVote
  dsimp only
  split <;> rfl

/-! ## C6: the win evaluator -/

/-- C6: for every roster, `calcWinner` computes `aliveMafia` as the count of
alive mafia-aligned players and `aliveTown` as alive count minus `aliveMafia`,
and returns town when `aliveMafia = 0`, mafia when `aliveMafia ≥ aliveTown`
and `aliveMafia > 0` (so an exact tie awards mafia the win), and no winner
otherwise. -/
theorem calcWinner_rule (players : List Player) :
    ((players.filter (fun p => p.isAlive && isMafiaRole p.role)).length = 0 →
      calcWinner players = some Faction.town)
    ∧ (0 < (players.filter (fun p => p.isAlive && isMafiaRole p.role)).length →
       (players.filter (fun p => p.isAlive)).length
           - (players.filter (fun p => p.isAlive && isMafiaRole p.role)).length
         ≤ (players.filter (fun p => p.isAlive && isMafiaRole p.role)).length →
       calcWinner players = some Faction.mafia)
    ∧ (0 < (players.filter (fun p => p.isAlive && isMafiaRole p.role)).length →
       (players.filter (fun p => p.isAlive && isMafiaRole p.role)).length
         < (players.filter (fun p => p.isAlive)).length
             - (players.filter (fun p => p.isAlive && isMafiaRole p.role)).length →
       calcWinner players = none) := by
  have key : players.filter (fun p => p.isAlive && isMafiaRole p.role)
      = (players.filter (fun p => p.isAlive)).filter
          (fun p => isMafiaRole p.role) := by
    rw [List.filter_filter]
    exact List.filter_congr (fun p _ => by rw [Bool.and_comm])
  unfold calcWinner
  dsimp only
  rw [key]
  refine ⟨?_, ?_, ?_⟩
  · intro h0
    rw [if_pos h0]
  · intro hpos hle
    rw [if_neg (by omega), if_pos (by omega)]
  · intro hpos hlt
    rw [if_neg (by omega), if_neg (by omega)]

/-- Witness for `calcWinner_rule`: one alive mafia against one alive citizen
is an exact tie, awarded to mafia. -/
theorem calcWinner_rule_witness :
    calcWinner [{ id := 1, role := Role.mafia }, { id := 2, role := Role.citizen }]
      = some Faction.mafia :=
  (calcWinner_rule
    [{ id := 1, role := Role.mafia }, { id := 2, role := Role.citizen }]).2.1
    (by decide) (by decide)

/-! ## C2: the night death rule -/

/-- C2: night resolution kills exactly the kill target when one is present
and it differs from the save target, and otherwise changes nobody's
aliveness; the killed player's `isAlive` becomes `false` outright (so a kill
of an already-dead player cannot resurrect them), and a save of anybody other
than the exact kill target has no effect on the outcome. -/
theorem resolveNight_death_rule (now daySec : Nat) (r : Room) :
    (resolveNight now daySec r).players.map (fun p => (p.id, p.isAlive))
      = r.players.map (fun p => (p.id,
          if r.night.killTargetId = some p.id ∧ r.night.saveTargetId ≠ some p.id
          then false else p.isAlive)) := by
  rw [resolveNight_players, List.map_map]
  have step1 : ((fun p : Player => (p.id, p.isAlive)) ∘ (fun p : Player =>
      { (if killedOf r.night = some p.id then { p with isAlive := false }
         else p) with nightSubmitted := false }))
      = fun p : Player =>
          (p.id, if killedOf r.night = some p.id then false else p.isAlive) := by
    funext p
    by_cases h : killedOf r.night = some p.id <;> simp [Function.comp, h]
  rw [step1]
  have step2 : (applyCheck r.night r.players).map (fun p : Player =>
        (p.id, if killedOf r.night = some p.id then false else p.isAlive))
      = r.players.map (fun p : Player =>
        (p.id, if killedOf r.night = some p.id then false else p.isAlive)) :=
    applyCheck_map_proj r.night r.players
      (fun i a => (i, if killedOf r.night = some i then false else a))
  rw [step2]
  refine List.map_congr_left ?_
  intro p _
  by_cases h : r.night.killTargetId = some p.id ∧ r.night.saveTargetId ≠ some p.id
  · rw [if_pos ((killedOf_eq_some r.night p.id).mpr h), if_pos h]
  · rw [if_neg (fun hc => h ((killedOf_eq_some r.night p.id).mp hc)), if_neg h]

/-! ## C7: komissar check privacy -/

/-- C7: when a komissar check was submitted (`checkTargetId` and `checkBy`
present) and the checked target is on the roster, night resolution writes the
investigation result exactly on the checking player's private field and leaves
every other player's private field unchanged; the room-level state the
resolution commits (the night record, the cleared vote scratch) carries no
check data at all. -/
theorem komissar_privacy (now daySec : Nat) (r : Room) (t b : Nat)
    (target : Player)
    (hct : r.night.checkTargetId = some t)
    (hcb : r.night.checkBy = some b)
    (hfind : r.players.find? (fun p => p.id == t) = some target) :
    ((resolveNight now daySec r).players.map (fun p => (p.id, p.lastCheckResult)))
      = r.players.map (fun p => (p.id,
          if p.id = b then
            some (CheckResult.mk t (isMafiaRole target.role))
          else p.lastCheckResult))
    ∧ (resolveNight now daySec r).night
        = { resolved := true, lastKilledPlayerId := killedOf r.night,
            lastSavedPlayerId := r.night.saveTargetId }
    ∧ (resolveNight now daySec r).vote = {} := by
  refine ⟨?_, resolveNight_night now daySec r, resolveNight_vote now daySec r⟩
  rw [resolveNight_players, List.map_map]
  have step1 : ((fun p : Player => (p.id, p.lastCheckResult)) ∘ (fun p : Player =>
      { (if killedOf r.night = some p.id then { p with isAlive := false }
         else p) with nightSubmitted := false }))
      = fun p : Player => (p.id, p.lastCheckResult) := by
    funext p
    by_cases h : killedOf r.night = some p.id <;> simp [Function.comp, h]
  rw [step1]
  have step2 : applyCheck r.night r.players
      = r.players.map (fun p => if p.id == b then
          { p with
            lastCheckResult := some (CheckResult.mk t (isMafiaRole target.role)) }
          else p) := by
    unfold applyCheck
    rw [hct, hcb]
    dsimp only
    rw [hfind]
  rw [step2, List.map_map]
  refine List.map_congr_left ?_
  intro p _
  by_cases h : p.id = b <;> simp [Function.comp, h]

/-- A concrete room with a pending komissar check, used to witness the
privacy statement. -/
def checkRoom : Room :=
  { status := Status.playing, phase := Phase.night, phaseEndsAtMs := some 100,
    night := { checkTargetId := some 2, checkBy := some 1,
               submittedCheck := true },
    players := [{ id := 1, role := Role.komissar },
                { id := 2, role := Role.mafia },
                { id := 3, role := Role.citizen },
                { id := 4, role := Role.doctor }] }

/-- Witness for `komissar_privacy` on `checkRoom`: only player 1 (the
checker) receives the result that player 2 is mafia-aligned. -/
theorem komissar_privacy_witness :
    ((resolveNight 0 60 checkRoom).players.map (fun p => (p.id, p.lastCheckResult)))
      = checkRoom.players.map (fun p => (p.id,
          if p.id = 1 then some (CheckResult.mk 2 true)
          else p.lastCheckResult))
    ∧ (resolveNight 0 60 checkRoom).night
        = { resolved := true, lastKilledPlayerId := killedOf checkRoom.night,
            lastSavedPlayerId := checkRoom.night.saveTargetId }
    ∧ (resolveNight 0 60 checkRoom).vote = {} :=
  komissar_privacy 0 60 checkRoom 2 1 { id := 2, role := Role.mafia }
    rfl rfl rfl

/-! ## C8: exactly-once submission -/

/-- C8: a submission attempt by a player whose `nightSubmitted`
(respectively `voteSubmitted`) flag is already set fails with
`actionAlreadySubmitted`; since both source functions perform every write
after that guard, the rejected attempt commits nothing — the step relation
leaves the room untouched. -/
theorem resubmission_rejected (r : Room) (role : Role) (actorId targetId : Nat)
    (a : Player)
    (hfind : r.players.find? (fun p => p.id == actorId) = some a) :
    (a.nightSubmitted = true →
       submitNightAction r role actorId targetId
         = Except.error GameError.actionAlreadySubmitted
       ∧ step (Op.submitNightOp role actorId targetId) r = r)
    ∧ (a.voteSubmitted = true →
       submitVote r actorId targetId
         = Except.error GameError.actionAlreadySubmitted
       ∧ step (Op.submitVoteOp actorId targetId) r = r) := by
  constructor
  · intro h
    have he : submitNightAction r role actorId targetId
        = Except.error GameError.actionAlreadySubmitted := by
      unfold submitNightAction
      rw [hfind]
      simp [h]
    refine ⟨he, ?_⟩
    simp only [step]
    split
    · rw [he]
    · rfl
  · intro h
    have he : submitVote r actorId targetId
        = Except.error GameError.actionAlreadySubmitted := by
      unfold submitVote
      rw [hfind]
      simp [h]
    refine ⟨he, ?_⟩
    simp only [step]
    split
    · rw [he]
    · rfl

/-- A playing night room whose mafia player 1 has already submitted, and has
also already voted in some earlier cycle's sense (both flags set), to witness
the resubmission guard. -/
def lockedRoom : Room :=
  { status := Status.playing, phase := Phase.night, phaseEndsAtMs := some 100,
    players := [{ id := 1, role := Role.mafia, nightSubmitted := true,
                  voteSubmitted := true },
                { id := 2, role := Role.citizen }] }

/-- Witness for `resubmission_rejected` on `lockedRoom`. -/
theorem resubmission_rejected_witness :
    (submitNightAction lockedRoom Role.mafia 1 2
       = Except.error GameError.actionAlreadySubmitted
     ∧ step (Op.submitNightOp Role.mafia 1 2) lockedRoom = lockedRoom)
    ∧ (submitVote lockedRoom 1 2
       = Except.error GameError.actionAlreadySubmitted
     ∧ step (Op.submitVoteOp 1 2) lockedRoom = lockedRoom) :=
  ⟨(resubmission_rejected lockedRoom Role.mafia 1 2
      { id := 1, role := Role.mafia, nightSubmitted := true,
        voteSubmitted := true } rfl).1 rfl,
   (resubmission_rejected lockedRoom Role.mafia 1 2
      { id := 1, role := Role.mafia, nightSubmitted := true,
        voteSubmitted := true } rfl).2 rfl⟩

/-! ## C10: vote submission performs no aliveness check -/

/-- Lookup of a voter's pending vote in the `vote.votes` map object. -/
def lookupVote (votes : List (Nat × Nat)) (v : Nat) : Option Nat :=
  (votes.find? (fun e => e.1 == v)).map (fun e => e.2)

/-- Writing a voter's key into the votes map makes it the voter's recorded
vote. -/
theorem lookupVote_setVote (votes : List (Nat × Nat)) (v t : Nat) :
    lookupVote (setVote votes v t) v = some t := by
  induction votes with
  | nil => simp [setVote, lookupVote]
  | cons e es ih =>
    by_cases he : e.1 = v
    · have hany : (e :: es).any (fun x => x.1 == v) = true := by
        simp [List.any_cons, he]
      simp [setVote, lookupVote, hany, he]
    · have hcons : setVote (e :: es) v t = e :: setVote es v t := by
        unfold setVote
        by_cases hany : es.any (fun x => x.1 == v) = true
        · simp [List.any_cons, he, hany]
        · simp [List.any_cons, he, hany]
      rw [hcons]
      simpa [lookupVote, List.find?_cons, he] using ih

/-- Folding with an inline guard equals folding over the filtered list. -/
theorem foldl_guard_eq_foldl_filter {α β : Type} (p : α → Prop)
    [DecidablePred p] (f : β → α → β) :
    ∀ (l : List α) (init : β),
      l.foldl (fun acc x => if p x then f acc x else acc) init
        = (l.filter (fun x => decide (p x))).foldl f init := by
  intro l
  induction l with
  | nil => intro init; rfl
  | cons x xs ih =>
    intro init
    by_cases h : p x <;> simp [h, ih]

/-- C10: vote submission performs no aliveness check: any existing player
whose `voteSubmitted` flag is false can submit, and the vote is recorded in
the pending vote map without touching anybody's aliveness — there is no
aliveness hypothesis anywhere below, and the witness exercises a dead voter
naming a dead target.  Dead voters and dead targets are dropped only later,
inside vote resolution: the tally is the tally of the alive-filtered vote
list. -/
theorem submitVote_no_aliveness (r : Room) (voterId targetId : Nat)
    (v : Player)
    (hfind : r.players.find? (fun p => p.id == voterId) = some v)
    (hsub : v.voteSubmitted = false) :
    (∃ r', submitVote r voterId targetId = Except.ok r'
       ∧ lookupVote r'.vote.votes voterId = some targetId
       ∧ r'.players.map (fun p => (p.id, p.isAlive))
           = r.players.map (fun p => (p.id, p.isAlive)))
    ∧ (∀ (aliveIds : List Nat) (votes : List (Nat × Nat)),
        buildTally aliveIds votes
          = buildTally aliveIds (votes.filter (fun vt =>
              decide (vt.1 ∈ aliveIds) && decide (vt.2 ∈ aliveIds)))) := by
  constructor
  · refine ⟨{ r with
        vote := { r.vote with votes := setVote r.vote.votes voterId targetId },
        players := r.players.map (fun p =>
          if p.id == voterId then { p with voteSubmitted := true } else p) },
      ?_, ?_, ?_⟩
    · unfold submitVote
      rw [hfind]
      simp [hsub]
    · exact lookupVote_setVote r.vote.votes voterId targetId
    · rw [List.map_map]
      refine List.map_congr_left ?_
      intro p _
      by_cases h : p.id = voterId <;> simp [Function.comp, h]
  · intro aliveIds votes
    unfold buildTally
    rw [foldl_guard_eq_foldl_filter
          (fun vt : Nat × Nat => vt.1 ∈ aliveIds ∧ vt.2 ∈ aliveIds)
          (fun acc vt => addTally acc vt.2) votes]
    rw [foldl_guard_eq_foldl_filter
          (fun vt : Nat × Nat => vt.1 ∈ aliveIds ∧ vt.2 ∈ aliveIds)
          (fun acc vt => addTally acc vt.2)
          (votes.filter (fun vt =>
            decide (vt.1 ∈ aliveIds) && decide (vt.2 ∈ aliveIds)))]
    rw [List.filter_filter]
    congr 1
    refine List.filter_congr ?_
    intro vt _
    simp [Bool.and_self]

/-- A vote-phase room in which players 1 and 2 are already dead. -/
def deadVoteRoom : Room :=
  { status := Status.playing, phase := Phase.vote, phaseEndsAtMs := some 100,
    vote := { started := true },
    players := [{ id := 1, role := Role.citizen, isAlive := false },
                { id := 2, role := Role.citizen, isAlive := false },
                { id := 3, role := Role.mafia },
                { id := 4, role := Role.citizen }] }

/-- Witness for `submitVote_no_aliveness`: the dead player 1 successfully
votes for the dead player 2. -/
theorem submitVote_no_aliveness_witness :
    (∃ r', submitVote deadVoteRoom 1 2 = Except.ok r'
       ∧ lookupVote r'.vote.votes 1 = some 2
       ∧ r'.players.map (fun p => (p.id, p.isAlive))
           = deadVoteRoom.players.map (fun p => (p.id, p.isAlive)))
    ∧ (∀ (aliveIds : List Nat) (votes : List (Nat × Nat)),
        buildTally aliveIds votes
          = buildTally aliveIds (votes.filter (fun vt =>
              decide (vt.1 ∈ aliveIds) && decide (vt.2 ∈ aliveIds)))) :=
  submitVote_no_aliveness deadVoteRoom 1 2
    { id := 1, role := Role.citizen, isAlive := false } rfl rfl

/-! ## Counting through the Fisher-Yates shuffle -/

/-- Setting one position exchanges that position's contribution to a count. -/
theorem count_set_add {α : Type} [DecidableEq α] :
    ∀ (l : List α) (i : Nat) (h : i < l.length) (a c : α),
      (l.set i a).count c + (if l[i] = c then 1 else 0)
        = l.count c + (if a = c then 1 else 0) := by
  intro l
  induction l with
  | nil =>
    intro i h
    simp at h
  | cons b t ih =>
    intro i h a c
    cases i with
    | zero =>
      simp only [List.set, List.getElem_cons_zero, List.count_cons]
      by_cases hb : b = c <;> by_cases ha : a = c <;>
        simp [hb, ha] <;> omega
    | succ i =>
      have h' : i < t.length := by simpa using h
      have hih := ih i h' a c
      simp only [List.set, List.getElem_cons_succ, List.count_cons]
      by_cases hb : b = c <;> simp [hb] <;> omega

/-- A Fisher-Yates swap never changes element counts. -/
theorem count_swapList {α : Type} [DecidableEq α] (l : List α) (i j : Nat)
    (c : α) : (swapList l i j).count c = l.count c := by
  unfold swapList
  cases hx : l.get? i with
  | none => rfl
  | some x =>
    cases hy : l.get? j with
    | none => rfl
    | some y =>
      dsimp only
      obtain ⟨hi, hxe⟩ := List.get?_eq_some.mp hx
      obtain ⟨hj, hye⟩ := List.get?_eq_some.mp hy
      have hj2 : j < (l.set i y).length := by simpa using hj
      have h1 := count_set_add (l.set i y) j hj2 x c
      have h2 := count_set_add l i hi y c
      have hget : (l.set i y)[j] = y := by
        by_cases hij : i = j
        · subst hij
          simp [List.getElem_set_self]
        · rw [List.getElem_set_ne hij]
          simp at hye
          exact hye
      rw [hget] at h1
      simp only [List.get_eq_getElem] at hxe
      rw [hxe] at h2
      exact Nat.add_right_cancel (h1.trans h2)

/-- The Fisher-Yates loop never changes element counts. -/
theorem count_fisherYates {α : Type} [DecidableEq α] (rnd : Nat → Nat) :
    ∀ (i : Nat) (a : List α) (c : α),
      (fisherYates rnd i a).count c = a.count c := by
  intro i
  induction i with
  | zero => intro a c; rfl
  | succ i ih =>
    intro a c
    unfold fisherYates
    rw [ih, count_swapList]

/-- `shuffle` never changes element counts. -/
theorem count_shuffle {α : Type} [DecidableEq α] (rnd : Nat → Nat)
    (l : List α) (c : α) : (shuffle rnd l).count c = l.count c :=
  count_fisherYates rnd (l.length - 1) l c

/-- A Fisher-Yates swap preserves length. -/
theorem length_swapList {α : Type} (l : List α) (i j : Nat) :
    (swapList l i j).length = l.length := by
  unfold swapList
  cases hx : l.get? i with
  | none => rfl
  | some x =>
    cases hy : l.get? j with
    | none => rfl
    | some y => simp

/-- The Fisher-Yates loop preserves length. -/
theorem length_fisherYates {α : Type} (rnd : Nat → Nat) :
    ∀ (i : Nat) (a : List α), (fisherYates rnd i a).length = a.length := by
  intro i
  induction i with
  | zero => intro a; rfl
  | succ i ih =>
    intro a
    unfold fisherYates
    rw [ih, length_swapList]

/-- `shuffle` preserves length. -/
theorem length_shuffle {α : Type} (rnd : Nat → Nat) (l : List α) :
    (shuffle rnd l).length = l.length :=
  length_fisherYates rnd (l.length - 1) l

/-- Role counts of the unshuffled policy list, for every `N ≥ 4`. -/
theorem buildRolesBase_counts (N : Nat) (h : 4 ≤ N) :
    (buildRolesBase N).length = N
    ∧ (buildRolesBase N).count Role.mafia = mafiaCountOf N
    ∧ (buildRolesBase N).count Role.don = (if 9 ≤ N then 1 else 0)
    ∧ (buildRolesBase N).count Role.komissar = 1
    ∧ (buildRolesBase N).count Role.doctor = 1
    ∧ (buildRolesBase N).count Role.citizen
        = N - (mafiaCountOf N + (if 9 ≤ N then 1 else 0) + 2) := by
  by_cases h9 : 9 ≤ N
  · simp only [buildRolesBase, mafiaCountOf, h9, if_pos, ge_iff_le, if_true,
      List.count_append, List.count_replicate, List.count_cons,
      List.count_nil, List.length_append, List.length_replicate,
      List.length_cons, List.length_nil]
    refine ⟨by omega, ?_⟩
    simp
  · by_cases h6 : 6 ≤ N
    · simp only [buildRolesBase, mafiaCountOf, h9, h6, ge_iff_le, if_false,
        if_true, List.count_append, List.count_replicate, List.count_cons,
        List.count_nil, List.length_append, List.length_replicate,
        List.length_cons, List.length_nil]
      refine ⟨by omega, ?_⟩
      simp
    · simp only [buildRolesBase, mafiaCountOf, h9, h6, ge_iff_le, if_false,
        List.count_append, List.count_replicate, List.count_cons,
        List.count_nil, List.length_append, List.length_replicate,
        List.length_cons, List.length_nil]
      refine ⟨by omega, ?_⟩
      simp

/-! ## C4: the role-assignment policy -/

/-- C4: for every player count `N ≥ 4` the role list built at game start has
exactly `N` roles: `1` mafia when `N < 6`, `2` when `6 ≤ N < 9`, `3` when
`N ≥ 9`; one don exactly when `N ≥ 9`; one komissar; one doctor; and every
remaining slot a citizen. -/
theorem buildRoles_policy (rnd : Nat → Nat) (N : Nat) (h : 4 ≤ N) :
    (buildRoles rnd N).length = N
    ∧ (buildRoles rnd N).count Role.mafia
        = (if N < 6 then 1 else if N < 9 then 2 else 3)
    ∧ ((buildRoles rnd N).count Role.don = if 9 ≤ N then 1 else 0)
    ∧ (buildRoles rnd N).count Role.komissar = 1
    ∧ (buildRoles rnd N).count Role.doctor = 1
    ∧ (buildRoles rnd N).count Role.citizen
        = N - ((if N < 6 then 1 else if N < 9 then 2 else 3)
                + (if 9 ≤ N then 1 else 0) + 2) := by
  obtain ⟨hl, hm, hd, hk, hdoc, hc⟩ := buildRolesBase_counts N h
  have hpol : mafiaCountOf N = (if N < 6 then 1 else if N < 9 then 2 else 3) := by
    unfold mafiaCountOf
    split_ifs <;> omega
  unfold buildRoles
  rw [length_shuffle, count_shuffle, count_shuffle, count_shuffle,
    count_shuffle, count_shuffle, hl, hm, hd, hk, hdoc, hc, hpol]
  exact ⟨rfl, rfl, rfl, rfl, rfl, rfl⟩

/-- Witness for `buildRoles_policy` at nine players with a constant random
stream. -/
theorem buildRoles_policy_witness :
    (buildRoles (fun _ => 0) 9).length = 9
    ∧ (buildRoles (fun _ => 0) 9).count Role.mafia
        = (if 9 < 6 then 1 else if 9 < 9 then 2 else 3)
    ∧ ((buildRoles (fun _ => 0) 9).count Role.don = if 9 ≤ 9 then 1 else 0)
    ∧ (buildRoles (fun _ => 0) 9).count Role.komissar = 1
    ∧ (buildRoles (fun _ => 0) 9).count Role.doctor = 1
    ∧ (buildRoles (fun _ => 0) 9).count Role.citizen
        = 9 - ((if 9 < 6 then 1 else if 9 < 9 then 2 else 3)
                + (if 9 ≤ 9 then 1 else 0) + 2) :=
  buildRoles_policy (fun _ => 0) 9 (by omega)

/-! ## C5: the nine-player role multiset -/

/-- C5 counterexample: at nine players the committed role list does NOT
contain two mafia and four citizens — the policy produces a third mafia
besides the don. -/
theorem nine_players_not_two_mafia :
    ¬((buildRoles (fun _ => 0) 9).count Role.mafia = 2
      ∧ (buildRoles (fun _ => 0) 9).count Role.citizen = 4) := by
  decide

/-- C5 amended: when a game starts with exactly nine players the assigned
role multiset contains exactly 3 mafia, 1 don, 1 komissar, 1 doctor and
3 citizen, whatever the shuffle draws. -/
theorem nine_players_role_multiset (rnd : Nat → Nat) :
    (buildRoles rnd 9).count Role.mafia = 3
    ∧ (buildRoles rnd 9).count Role.don = 1
    ∧ (buildRoles rnd 9).count Role.komissar = 1
    ∧ (buildRoles rnd 9).count Role.doctor = 1
    ∧ (buildRoles rnd 9).count Role.citizen = 3
    ∧ (buildRoles rnd 9).length = 9 := by
  refine ⟨?_, ?_, ?_, ?_, ?_, ?_⟩ <;>
    simp only [buildRoles, count_shuffle, length_shuffle] <;> decide

/-! ## Field dichotomies of the resolutions -/

/-- `resolveNight` either ends the game (winner set, status and phase ended)
or moves to day leaving status and winner untouched. -/
theorem resolveNight_fields (now daySec : Nat) (r : Room) :
    ((resolveNight now daySec r).status = Status.ended
      ∧ (resolveNight now daySec r).phase = Phase.ended
      ∧ (resolveNight now daySec r).winner.isSome = true)
    ∨ ((resolveNight now daySec r).status = r.status
      ∧ (resolveNight now daySec r).phase = Phase.day
      ∧ (resolveNight now daySec r).winner = r.winner) := by
  unfold resolveNight
  dsimp only
  split
  · exact Or.inl ⟨rfl, rfl, rfl⟩
  · exact Or.inr ⟨rfl, rfl, rfl⟩

/-- `resolveVote` either ends the game or moves to night leaving status and
winner untouched. -/
theorem resolveVote_fields (now nightSec : Nat) (r : Room) :
    ((resolveVote now nightSec r).status = Status.ended
      ∧ (resolveVote now nightSec r).phase = Phase.ended
      ∧ (resolveVote now nightSec r).winner.isSome = true)
    ∨ ((resolveVote now nightSec r).status = r.status
      ∧ (resolveVote now nightSec r).phase = Phase.night
      ∧ (resolveVote now nightSec r).winner = r.winner) := by
  unfold resolveVote
  dsimp only
  split
  · exact Or.inl ⟨rfl, rfl, rfl⟩
  · exact Or.inr ⟨rfl, rfl, rfl⟩

/-- `startVote` only opens the vote phase: status and winner are untouched. -/
theorem startVote_fields (now voteSec : Nat) (r : Room) :
    (startVote now voteSec r).status = r.status
    ∧ (startVote now voteSec r).phase = Phase.vote
    ∧ (startVote now voteSec r).winner = r.winner :=
  ⟨rfl, rfl, rfl⟩

/-- Exhaustive description of one host tick: it either returns the state
unchanged, or fires exactly once for the current `(phase, deadline)` instance
of a playing room whose deadline has passed. -/
theorem tick_cases (dS vS nS : Nat) (lock : Option (Phase × Nat)) (now : Nat)
    (r : Room) :
    tick dS vS nS lock now r = (lock, r)
    ∨ (r.status = Status.playing ∧ ∃ d, r.phaseEndsAtMs = some d
        ∧ lock ≠ some (r.phase, d) ∧ d ≤ now
        ∧ ((r.phase = Phase.night
              ∧ tick dS vS nS lock now r
                  = (some (r.phase, d), resolveNight now dS r))
           ∨ (r.phase = Phase.day
              ∧ tick dS vS nS lock now r
                  = (some (r.phase, d), startVote now vS r))
           ∨ (r.phase = Phase.vote
              ∧ tick dS vS nS lock now r
                  = (some (r.phase, d), resolveVote now nS r))
           ∨ ((r.phase = Phase.lobby ∨ r.phase = Phase.ended)
              ∧ tick dS vS nS lock now r = (some (r.phase, d), r)))) := by
  by_cases hs : r.status = Status.playing
  · cases hd : r.phaseEndsAtMs with
    | none => exact Or.inl (by simp [tick, hs, hd])
    | some d =>
      by_cases hl : lock = some (r.phase, d)
      · exact Or.inl (by simp [tick, hs, hd, hl])
      · by_cases hn : now < d
        · exact Or.inl (by simp [tick, hs, hd, hl, hn])
        · refine Or.inr ⟨hs, ?_⟩
          refine ⟨d, rfl, hl, by omega, ?_⟩
          cases hp : r.phase
          all_goals rw [hp] at hl
          · exact Or.inr (Or.inr (Or.inr ⟨Or.inl rfl,
              by simp [tick, hs, hd, hl, hn, hp]⟩))
          · exact Or.inl ⟨rfl, by simp [tick, hs, hd, hl, hn, hp]⟩
          · exact Or.inr (Or.inl ⟨rfl, by simp [tick, hs, hd, hl, hn, hp]⟩)
          · exact Or.inr (Or.inr (Or.inl ⟨rfl,
              by simp [tick, hs, hd, hl, hn, hp]⟩))
          · exact Or.inr (Or.inr (Or.inr ⟨Or.inr rfl,
              by simp [tick, hs, hd, hl, hn, hp]⟩))
  · exact Or.inl (by simp [tick, hs])

/-- A successful night submission touches only the night scratch and the
actor's lock flag. -/
theorem submitNightAction_frame (r : Room) (role : Role) (a t : Nat)
    (r' : Room) (h : submitNightAction r role a t = Except.ok r') :
    r'.winner = r.winner ∧ r'.status = r.status ∧ r'.phase = r.phase
    ∧ r'.phaseEndsAtMs = r.phaseEndsAtMs ∧ r'.dayNumber = r.dayNumber := by
  unfold submitNightAction at h
  cases hf : r.players.find? (fun p => p.id == a) with
  | none => rw [hf] at h; cases h
  | some actor =>
    rw [hf] at h
    by_cases hsub : actor.nightSubmitted
    · simp [hsub] at h
    · simp only [hsub, if_false, Bool.false_eq_true] at h
      cases h
      exact ⟨rfl, rfl, rfl, rfl, rfl⟩

/-- A successful vote submission touches only the vote scratch and the
voter's lock flag. -/
theorem submitVote_frame (r : Room) (v t : Nat) (r' : Room)
    (h : submitVote r v t = Except.ok r') :
    r'.winner = r.winner ∧ r'.status = r.status ∧ r'.phase = r.phase
    ∧ r'.phaseEndsAtMs = r.phaseEndsAtMs ∧ r'.dayNumber = r.dayNumber := by
  unfold submitVote at h
  cases hf : r.players.find? (fun p => p.id == v) with
  | none => rw [hf] at h; cases h
  | some voter =>
    rw [hf] at h
    by_cases hsub : voter.voteSubmitted
    · simp [hsub] at h
    · simp only [hsub, if_false, Bool.false_eq_true] at h
      cases h
      exact ⟨rfl, rfl, rfl, rfl, rfl⟩

/-- A successful game start commits a playing night room with no winner. -/
theorem startGame_fields (rr rp : Nat → Nat) (now ns : Nat) (r : Room)
    (r' : Room) (h : startGame rr rp now ns r = Except.ok r') :
    r'.winner = none ∧ r'.status = Status.playing
    ∧ r'.phase = Phase.night := by
  unfold startGame at h
  by_cases hlen : r.players.length < 4
  · simp [hlen] at h
  · simp only [hlen, if_false] at h
    cases h
    exact ⟨rfl, rfl, rfl⟩

/-! ## C9: a set winner is terminal -/

/-- C9: across every operation the repository can invoke on a room, the ended
invariant is preserved (a non-null `winner` only ever coexists with
`status = ended`, `phase = ended`); `winner` only ever changes when it was
null (set at most once per game); and once `winner` is non-null no operation
changes the phase, the status or the winner again.  The invariant holds for a
freshly created room, so it holds in every reachable state. -/
theorem winner_terminal (r : Room) (op : Op) (h : endedInv r) :
    endedInv (step op r)
    ∧ ((step op r).winner = r.winner ∨ r.winner = none)
    ∧ (r.winner.isSome = true →
        (step op r).phase = r.phase ∧ (step op r).status = r.status
          ∧ (step op r).winner = r.winner)
    ∧ (∀ ownerId, endedInv (createRoom ownerId)) := by
  have base : ∀ ownerId, endedInv (createRoom ownerId) := by
    intro o hsome
    simp [createRoom] at hsome
  have main : endedInv (step op r)
      ∧ ((step op r).winner = r.winner ∨ r.winner = none)
      ∧ (r.winner.isSome = true →
          (step op r).phase = r.phase ∧ (step op r).status = r.status
            ∧ (step op r).winner = r.winner) := by
    cases op with
    | tickOp lock now =>
      rcases tick_cases 60 45 60 lock now r with heq | ⟨hs, d, hd, hl, hn, hc⟩
      · have hstep : step (Op.tickOp lock now) r = r := by
          simp only [step]
          rw [heq]
        rw [hstep]
        exact ⟨h, Or.inl rfl, fun _ => ⟨rfl, rfl, rfl⟩⟩
      · have hw : r.winner = none := by
          cases hwo : r.winner with
          | none => rfl
          | some w =>
            exfalso
            have h2 := h (by simp [hwo])
            rw [h2.1] at hs
            exact Status.noConfusion hs
        have hperm : r.winner.isSome = true →
            (step (Op.tickOp lock now) r).phase = r.phase
            ∧ (step (Op.tickOp lock now) r).status = r.status
            ∧ (step (Op.tickOp lock now) r).winner = r.winner := by
          intro hsome
          rw [hw] at hsome
          cases hsome
        rcases hc with ⟨hp, heq⟩ | ⟨hp, heq⟩ | ⟨hp, heq⟩ | ⟨hp, heq⟩
        · have hstep : step (Op.tickOp lock now) r = resolveNight now 60 r := by
            simp only [step]
            rw [heq]
          rw [hstep] at hperm ⊢
          refine ⟨?_, Or.inr hw, hperm⟩
          rcases resolveNight_fields now 60 r with ⟨h1, h2, _⟩ | ⟨_, _, h3⟩
          · intro _; exact ⟨h1, h2⟩
          · intro hsome; rw [h3, hw] at hsome; cases hsome
        · have hstep : step (Op.tickOp lock now) r = startVote now 45 r := by
            simp only [step]
            rw [heq]
          rw [hstep] at hperm ⊢
          refine ⟨?_, Or.inr hw, hperm⟩
          intro hsome
          rw [(startVote_fields now 45 r).2.2, hw] at hsome
          cases hsome
        · have hstep : step (Op.tickOp lock now) r = resolveVote now 60 r := by
            simp only [step]
            rw [heq]
          rw [hstep] at hperm ⊢
          refine ⟨?_, Or.inr hw, hperm⟩
          rcases resolveVote_fields now 60 r with ⟨h1, h2, _⟩ | ⟨_, _, h3⟩
          · intro _; exact ⟨h1, h2⟩
          · intro hsome; rw [h3, hw] at hsome; cases hsome
        · have hstep : step (Op.tickOp lock now) r = r := by
            simp only [step]
            rw [heq]
          rw [hstep]
          exact ⟨h, Or.inl rfl, fun _ => ⟨rfl, rfl, rfl⟩⟩
    | startGameOp rr rp now ns =>
      by_cases hlobby : r.status = Status.lobby
      · have hw : r.winner = none := by
          cases hwo : r.winner with
          | none => rfl
          | some w =>
            exfalso
            have h2 := h (by simp [hwo])
            rw [h2.1] at hlobby
            exact Status.noConfusion hlobby
        cases hg : startGame rr rp now ns r with
        | ok r1 =>
          have hstep : step (Op.startGameOp rr rp now ns) r = r1 := by
            simp only [step, hlobby, if_pos]
            rw [hg]
          rw [hstep]
          obtain ⟨hw1, _, _⟩ := startGame_fields rr rp now ns r r1 hg
          refine ⟨?_, Or.inr hw, ?_⟩
          · intro hsome; rw [hw1] at hsome; cases hsome
          · intro hsome; rw [hw] at hsome; cases hsome
        | error e =>
          have hstep : step (Op.startGameOp rr rp now ns) r = r := by
            simp only [step, hlobby, if_pos]
            rw [hg]
          rw [hstep]
          exact ⟨h, Or.inl rfl, fun _ => ⟨rfl, rfl, rfl⟩⟩
      · have hstep : step (Op.startGameOp rr rp now ns) r = r := by
          simp only [step, hlobby, if_neg, if_false]
        rw [hstep]
        exact ⟨h, Or.inl rfl, fun _ => ⟨rfl, rfl, rfl⟩⟩
    | submitNightOp role a t =>
      by_cases hg : r.status = Status.playing ∧ r.phase = Phase.night
      · cases hsub : submitNightAction r role a t with
        | ok r1 =>
          have hstep : step (Op.submitNightOp role a t) r = r1 := by
            simp [step, hg, hsub]
          rw [hstep]
          obtain ⟨hw1, hs1, hp1, _, _⟩ :=
            submitNightAction_frame r role a t r1 hsub
          refine ⟨?_, Or.inl hw1, fun _ => ⟨hp1, hs1, hw1⟩⟩
          intro hsome
          rw [hw1] at hsome
          exact ⟨hs1.trans (h hsome).1, hp1.trans (h hsome).2⟩
        | error e =>
          have hstep : step (Op.submitNightOp role a t) r = r := by
            simp [step, hg, hsub]
          rw [hstep]
          exact ⟨h, Or.inl rfl, fun _ => ⟨rfl, rfl, rfl⟩⟩
      · have hstep : step (Op.submitNightOp role a t) r = r := by
          simp only [step, hg, if_neg, if_false]
        rw [hstep]
        exact ⟨h, Or.inl rfl, fun _ => ⟨rfl, rfl, rfl⟩⟩
    | submitVoteOp v t =>
      by_cases hg : r.status = Status.playing ∧ r.phase = Phase.vote
      · cases hsub : submitVote r v t with
        | ok r1 =>
          have hstep : step (Op.submitVoteOp v t) r = r1 := by
            simp [step, hg, hsub]
          rw [hstep]
          obtain ⟨hw1, hs1, hp1, _, _⟩ := submitVote_frame r v t r1 hsub
          refine ⟨?_, Or.inl hw1, fun _ => ⟨hp1, hs1, hw1⟩⟩
          intro hsome
          rw [hw1] at hsome
          exact ⟨hs1.trans (h hsome).1, hp1.trans (h hsome).2⟩
        | error e =>
          have hstep : step (Op.submitVoteOp v t) r = r := by
            simp [step, hg, hsub]
          rw [hstep]
          exact ⟨h, Or.inl rfl, fun _ => ⟨rfl, rfl, rfl⟩⟩
      · have hstep : step (Op.submitVoteOp v t) r = r := by
          simp only [step, hg, if_neg, if_false]
        rw [hstep]
        exact ⟨h, Or.inl rfl, fun _ => ⟨rfl, rfl, rfl⟩⟩
    | joinOp pid => exact ⟨h, Or.inl rfl, fun _ => ⟨rfl, rfl, rfl⟩⟩
    | kickOp pid => exact ⟨h, Or.inl rfl, fun _ => ⟨rfl, rfl, rfl⟩⟩
    | readyOp pid b => exact ⟨h, Or.inl rfl, fun _ => ⟨rfl, rfl, rfl⟩⟩
    | settingsOp s => exact ⟨h, Or.inl rfl, fun _ => ⟨rfl, rfl, rfl⟩⟩
  exact ⟨main.1, main.2.1, main.2.2, base⟩

/-- An ended room with a recorded mafia win. -/
def endedRoom : Room :=
  { status := Status.ended, phase := Phase.ended, winner := some Faction.mafia,
    phaseEndsAtMs := none, dayNumber := 3,
    players := [{ id := 1, role := Role.mafia },
                { id := 2, role := Role.citizen, isAlive := false },
                { id := 3, role := Role.doctor, isAlive := false },
                { id := 4, role := Role.komissar }] }

/-- Witness for `winner_terminal`: an expired tick on `endedRoom` leaves the
winner, phase and status untouched. -/
theorem winner_terminal_witness :
    endedInv (step (Op.tickOp none 999999) endedRoom)
    ∧ ((step (Op.tickOp none 999999) endedRoom).winner = endedRoom.winner
        ∨ endedRoom.winner = none)
    ∧ (endedRoom.winner.isSome = true →
        (step (Op.tickOp none 999999) endedRoom).phase = endedRoom.phase
          ∧ (step (Op.tickOp none 999999) endedRoom).status = endedRoom.status
          ∧ (step (Op.tickOp none 999999) endedRoom).winner = endedRoom.winner)
    ∧ (∀ ownerId, endedInv (createRoom ownerId)) :=
  winner_terminal endedRoom (Op.tickOp none 999999) (fun _ => ⟨rfl, rfl⟩)

/-- A tick against a room that is not playing does nothing. -/
theorem tick_stale (dS vS nS : Nat) (lock : Option (Phase × Nat)) (now : Nat)
    (r : Room) (h : r.status ≠ Status.playing) :
    tick dS vS nS lock now r = (lock, r) := by
  unfold tick
  rw [if_pos h]

/-! ## C1: advancing an expired instance is idempotent -/

/-- C1: for a playing room whose `(phase, deadline)` instance has expired
(playing rooms carry a night, day or vote phase), the host tick fires once
and marks the instance done; the committed state no longer carries that
instance (it is ended, or its phase changed); a renewed attempt against the
same observed instance, with the lock now held, is a strict no-op; a second
tick from the committed state either changes nothing or fires for a different
phase instance; and for the night instance specifically a second tick never
produces another death nor another `dayNumber` increment. -/
theorem tick_advance_idempotent (l0 : Option (Phase × Nat)) (now d : Nat)
    (r : Room)
    (hst : r.status = Status.playing)
    (hph : r.phase = Phase.night ∨ r.phase = Phase.day ∨ r.phase = Phase.vote)
    (hdl : r.phaseEndsAtMs = some d)
    (hexp : d ≤ now)
    (hlock : l0 ≠ some (r.phase, d)) :
    (tick 60 45 60 l0 now r).1 = some (r.phase, d)
    ∧ ((tick 60 45 60 l0 now r).2.status = Status.ended
        ∨ (tick 60 45 60 l0 now r).2.phase ≠ r.phase)
    ∧ (∀ now2, tick 60 45 60 (some (r.phase, d)) now2 r = (some (r.phase, d), r))
    ∧ (∀ now2,
        (tick 60 45 60 (tick 60 45 60 l0 now r).1 now2
            (tick 60 45 60 l0 now r).2).2
          = (tick 60 45 60 l0 now r).2
        ∨ (tick 60 45 60 l0 now r).2.phase ≠ r.phase)
    ∧ (r.phase = Phase.night → ∀ now2,
        (tick 60 45 60 (tick 60 45 60 l0 now r).1 now2
            (tick 60 45 60 l0 now r).2).2.dayNumber
          = (tick 60 45 60 l0 now r).2.dayNumber
        ∧ (tick 60 45 60 (tick 60 45 60 l0 now r).1 now2
            (tick 60 45 60 l0 now r).2).2.players.map
              (fun p => (p.id, p.isAlive))
          = (tick 60 45 60 l0 now r).2.players.map
              (fun p => (p.id, p.isAlive))) := by
  have hnlt : ¬ now < d := by omega
  have c3 : ∀ now2,
      tick 60 45 60 (some (r.phase, d)) now2 r = (some (r.phase, d), r) := by
    intro now2
    unfold tick
    rw [if_neg (by rw [hst]; intro hc; exact hc rfl), hdl]
    dsimp only
    rw [if_pos rfl]
  have c2of : ∀ r1 : Room,
      (r1.status = Status.ended ∨ r1.phase ≠ r.phase) →
      ∀ now2, (tick 60 45 60 (tick 60 45 60 l0 now r).1 now2 r1).2 = r1
        ∨ r1.phase ≠ r.phase := by
    intro r1 hr1 now2
    rcases hr1 with hend | hph1
    · left
      rw [tick_stale 60 45 60 (tick 60 45 60 l0 now r).1 now2 r1
          (by rw [hend]; intro hc; exact Status.noConfusion hc)]
    · right
      exact hph1
  rcases hph with hp | hp | hp
  · -- night instance
    rw [hp] at hlock
    have h1 : tick 60 45 60 l0 now r
        = (some (Phase.night, d), resolveNight now 60 r) := by
      simp [tick, hst, hdl, hlock, hp, hnlt]
    have hfields := resolveNight_fields now 60 r
    have c2 : (tick 60 45 60 l0 now r).2.status = Status.ended
        ∨ (tick 60 45 60 l0 now r).2.phase ≠ r.phase := by
      rw [h1]
      rcases hfields with ⟨h2, _, _⟩ | ⟨_, h2, _⟩
      · exact Or.inl h2
      · right
        rw [h2, hp]
        intro hc
        exact Phase.noConfusion hc
    refine ⟨by rw [h1, hp], c2, c3, fun now2 => c2of _ c2 now2, ?_⟩
    intro _ now2
    rcases hfields with ⟨h2, _, _⟩ | ⟨hs2, h2, _⟩
    · rw [h1]
      rw [tick_stale 60 45 60 (some (Phase.night, d)) now2
          (resolveNight now 60 r)
          (by rw [h2]; intro hc; exact Status.noConfusion hc)]
      exact ⟨rfl, rfl⟩
    · -- the committed state is a day room; a second expired tick can only
      -- start the vote, which kills nobody and keeps dayNumber
      rw [h1]
      dsimp only
      rcases tick_cases 60 45 60 (some (Phase.night, d)) now2
          (resolveNight now 60 r) with heq | ⟨_, d2, _, _, _, hc⟩
      · rw [heq]
        exact ⟨rfl, rfl⟩
      · rcases hc with ⟨hpp, _⟩ | ⟨hpp, heq⟩ | ⟨hpp, _⟩ | ⟨hpp, _⟩
        · rw [h2] at hpp
          exact absurd hpp (by intro hc; exact Phase.noConfusion hc)
        · rw [heq]
          constructor
          · rfl
          · dsimp only [startVote]
            rw [List.map_map]
            refine List.map_congr_left ?_
            intro p _
            rfl
        · rw [h2] at hpp
          exact absurd hpp (by intro hc; exact Phase.noConfusion hc)
        · rcases hpp with hpp | hpp <;> rw [h2] at hpp <;>
            exact absurd hpp (by intro hc; exact Phase.noConfusion hc)
  · -- day instance
    rw [hp] at hlock
    have h1 : tick 60 45 60 l0 now r
        = (some (Phase.day, d), startVote now 45 r) := by
      simp [tick, hst, hdl, hlock, hp, hnlt]
    have c2 : (tick 60 45 60 l0 now r).2.status = Status.ended
        ∨ (tick 60 45 60 l0 now r).2.phase ≠ r.phase := by
      rw [h1]
      right
      rw [(startVote_fields now 45 r).2.1, hp]
      intro hc
      exact Phase.noConfusion hc
    refine ⟨by rw [h1, hp], c2, c3, fun now2 => c2of _ c2 now2, ?_⟩
    intro hc
    rw [hp] at hc
    exact absurd hc (by intro hc2; exact Phase.noConfusion hc2)
  · -- vote instance
    rw [hp] at hlock
    have h1 : tick 60 45 60 l0 now r
        = (some (Phase.vote, d), resolveVote now 60 r) := by
      simp [tick, hst, hdl, hlock, hp, hnlt]
    have c2 : (tick 60 45 60 l0 now r).2.status = Status.ended
        ∨ (tick 60 45 60 l0 now r).2.phase ≠ r.phase := by
      rw [h1]
      rcases resolveVote_fields now 60 r with ⟨h2, _, _⟩ | ⟨_, h2, _⟩
      · exact Or.inl h2
      · right
        rw [h2, hp]
        intro hcon
        exact Phase.noConfusion hcon
    refine ⟨by rw [h1, hp], c2, c3, fun now2 => c2of _ c2 now2, ?_⟩
    intro hc
    rw [hp] at hc
    exact absurd hc (by intro hc2; exact Phase.noConfusion hc2)

/-- A playing night room with an expired deadline, a pending kill on player 3
and a save on player 4. -/
def nightRoom : Room :=
  { status := Status.playing, phase := Phase.night, phaseEndsAtMs := some 1000,
    dayNumber := 0,
    night := { killTargetId := some 3, killBy := some 1,
               saveTargetId := some 4, saveBy := some 4,
               submittedKill := true, submittedSave := true },
    players := [{ id := 1, role := Role.mafia },
                { id := 2, role := Role.citizen },
                { id := 3, role := Role.citizen },
                { id := 4, role := Role.doctor },
                { id := 5, role := Role.komissar }] }

/-- Witness for `tick_advance_idempotent` on `nightRoom` at time 2000. -/
theorem tick_advance_idempotent_witness :
    (tick 60 45 60 none 2000 nightRoom).1 = some (nightRoom.phase, 1000)
    ∧ ((tick 60 45 60 none 2000 nightRoom).2.status = Status.ended
        ∨ (tick 60 45 60 none 2000 nightRoom).2.phase ≠ nightRoom.phase)
    ∧ (∀ now2, tick 60 45 60 (some (nightRoom.phase, 1000)) now2 nightRoom
        = (some (nightRoom.phase, 1000), nightRoom))
    ∧ (∀ now2,
        (tick 60 45 60 (tick 60 45 60 none 2000 nightRoom).1 now2
            (tick 60 45 60 none 2000 nightRoom).2).2
          = (tick 60 45 60 none 2000 nightRoom).2
        ∨ (tick 60 45 60 none 2000 nightRoom).2.phase ≠ nightRoom.phase)
    ∧ (nightRoom.phase = Phase.night → ∀ now2,
        (tick 60 45 60 (tick 60 45 60 none 2000 nightRoom).1 now2
            (tick 60 45 60 none 2000 nightRoom).2).2.dayNumber
          = (tick 60 45 60 none 2000 nightRoom).2.dayNumber
        ∧ (tick 60 45 60 (tick 60 45 60 none 2000 nightRoom).1 now2
            (tick 60 45 60 none 2000 nightRoom).2).2.players.map
              (fun p => (p.id, p.isAlive))
          = (tick 60 45 60 none 2000 nightRoom).2.players.map
              (fun p => (p.id, p.isAlive))) :=
  tick_advance_idempotent none 2000 1000 nightRoom rfl (Or.inl rfl) rfl
    (by omega) (by intro hc; exact Option.noConfusion hc)

/-! ## C3: the vote tally -/

/-- Specification-side vote count: first discard every vote whose voter or
target is not alive on the roster, then count the remaining votes naming
target `t`. -/
def cntVotes (aliveIds : List Nat) (votes : List (Nat × Nat)) (t : Nat) : Nat :=
  ((votes.filter (fun vt =>
      decide (vt.1 ∈ aliveIds) && decide (vt.2 ∈ aliveIds))).filter
    (fun vt => vt.2 == t)).length

/-- One more vote at the end changes the count by exactly its contribution. -/
theorem cntVotes_append (aliveIds : List Nat) (votes : List (Nat × Nat))
    (vt : Nat × Nat) (t : Nat) :
    cntVotes aliveIds (votes ++ [vt]) t
      = cntVotes aliveIds votes t
        + (if (vt.1 ∈ aliveIds ∧ vt.2 ∈ aliveIds) ∧ vt.2 = t then 1 else 0) := by
  unfold cntVotes
  rw [List.filter_append, List.filter_append, List.length_append]
  by_cases hv1 : vt.1 ∈ aliveIds
  · by_cases hv2 : vt.2 ∈ aliveIds
    · have h1 : List.filter (fun x : Nat × Nat =>
          decide (x.1 ∈ aliveIds) && decide (x.2 ∈ aliveIds)) [vt] = [vt] := by
        simp [hv1, hv2]
      rw [h1]
      by_cases ht : vt.2 = t
      · have h2 : List.filter (fun x : Nat × Nat => x.2 == t) [vt] = [vt] := by
          simp [ht]
        rw [h2, if_pos ⟨⟨hv1, hv2⟩, ht⟩]
        rfl
      · have h2 : List.filter (fun x : Nat × Nat => x.2 == t) [vt] = [] := by
          simp [ht]
        rw [h2, if_neg (fun hc => ht hc.2)]
        rfl
    · have h1 : List.filter (fun x : Nat × Nat =>
          decide (x.1 ∈ aliveIds) && decide (x.2 ∈ aliveIds)) [vt] = [] := by
        simp [hv2]
      rw [h1, if_neg (fun hc => hv2 hc.1.2)]
      rfl
  · have h1 : List.filter (fun x : Nat × Nat =>
        decide (x.1 ∈ aliveIds) && decide (x.2 ∈ aliveIds)) [vt] = [] := by
      simp [hv1]
    rw [h1, if_neg (fun hc => hv1 hc.1.1)]
    rfl

/-- Adding one tallied vote for `u` to a tally whose entries each pair a key
with its running count keeps the keys duplicate-free and shifts the described
counts by one at key `u`. -/
theorem addTally_mem (T : List (Nat × Nat)) (u : Nat) (n : Nat → Nat)
    (hnd : (T.map Prod.fst).Nodup)
    (hmem : ∀ t c, ((t, c) ∈ T ↔ (0 < n t ∧ c = n t))) :
    ((addTally T u).map Prod.fst).Nodup
    ∧ (∀ t c, ((t, c) ∈ addTally T u ↔
        (0 < n t + (if t = u then 1 else 0)
          ∧ c = n t + (if t = u then 1 else 0)))) := by
  unfold addTally
  by_cases hk : T.any (fun e => e.1 == u) = true
  · rw [if_pos hk]
    have hkeys : (T.map (fun e : Nat × Nat =>
        if e.1 == u then (e.1, e.2 + 1) else e)).map Prod.fst
        = T.map Prod.fst := by
      rw [List.map_map]
      refine List.map_congr_left ?_
      intro e _
      by_cases he : e.1 = u <;> simp [Function.comp, he]
    obtain ⟨e0, he0, he0u⟩ := List.any_eq_true.mp hk
    have he0u : e0.1 = u := by simpa using he0u
    have hnu : 0 < n u ∧ e0.2 = n u := by
      have h1 := (hmem e0.1 e0.2).mp (by simpa using he0)
      rw [he0u] at h1
      exact h1
    refine ⟨by rw [hkeys]; exact hnd, ?_⟩
    intro t c
    rw [List.mem_map]
    constructor
    · rintro ⟨e, he, heq⟩
      by_cases heu : e.1 = u
      · rw [if_pos (by simpa using heu)] at heq
        have hee := (hmem e.1 e.2).mp (by simpa using he)
        cases heq
        rw [heu, if_pos rfl]
        rw [heu] at hee
        exact ⟨by omega, by omega⟩
      · rw [if_neg (by simpa using heu)] at heq
        cases heq
        rw [if_neg heu]
        exact (hmem t c).mp he
    · rintro ⟨hpos, hc⟩
      by_cases htu : t = u
      · rw [if_pos htu] at hc
        subst htu
        refine ⟨e0, he0, ?_⟩
        rw [if_pos (by simpa using he0u), he0u, hnu.2, hc]
      · rw [if_neg htu] at hpos hc
        refine ⟨(t, n t), (hmem t (n t)).mpr ⟨hpos, rfl⟩, ?_⟩
        rw [if_neg (by simpa using htu)]
        simp [hc]
  · rw [if_neg hk]
    have hnu : n u = 0 := by
      by_contra hnz
      have hm : (u, n u) ∈ T := (hmem u (n u)).mpr ⟨by omega, rfl⟩
      exact hk (List.any_eq_true.mpr ⟨(u, n u), hm, by simp⟩)
    have hukeys : u ∉ T.map Prod.fst := by
      intro hu
      obtain ⟨e, he, heq⟩ := List.mem_map.mp hu
      exact hk (List.any_eq_true.mpr ⟨e, he, by simp [heq]⟩)
    constructor
    · rw [List.map_append, List.nodup_append]
      refine ⟨hnd, by simp, ?_⟩
      intro a ha hb
      simp only [List.map_cons, List.map_nil, List.mem_singleton] at hb
      rw [hb] at ha
      exact hukeys ha
    · intro t c
      rw [List.mem_append]
      constructor
      · rintro (hin | hin)
        · have h1 := (hmem t c).mp hin
          have htu : t ≠ u := by
            intro he
            rw [he] at hin
            exact hukeys (List.mem_map.mpr ⟨(u, c), hin, rfl⟩)
          rw [if_neg htu]
          exact h1
        · simp only [List.mem_singleton, Prod.mk.injEq] at hin
          rw [hin.1, if_pos rfl, hin.2, hnu]
          exact ⟨by omega, by omega⟩
      · rintro ⟨hpos, hc⟩
        by_cases htu : t = u
        · right
          rw [if_pos htu] at hc
          rw [htu] at hc ⊢
          rw [hnu] at hc
          simp only [List.mem_singleton, Prod.mk.injEq]
          exact ⟨trivial, by omega⟩
        · left
          rw [if_neg htu] at hpos hc
          exact (hmem t c).mpr ⟨hpos, hc⟩

/-- The tally built by `resolveVote` pairs each target with the number of
valid votes naming it: its keys are duplicate-free and its entries are
exactly the targets with a positive count. -/
theorem buildTally_mem (aliveIds : List Nat) (votes : List (Nat × Nat)) :
    ((buildTally aliveIds votes).map Prod.fst).Nodup
    ∧ (∀ t c, ((t, c) ∈ buildTally aliveIds votes ↔
        (0 < cntVotes aliveIds votes t ∧ c = cntVotes aliveIds votes t))) := by
  induction votes using List.reverseRecOn with
  | nil =>
    refine ⟨by simp [buildTally], ?_⟩
    intro t c
    simp [buildTally, cntVotes]
  | append_singleton votes vt ih =>
    have hstep : buildTally aliveIds (votes ++ [vt])
        = (if vt.1 ∈ aliveIds ∧ vt.2 ∈ aliveIds then
            addTally (buildTally aliveIds votes) vt.2
          else buildTally aliveIds votes) := by
      unfold buildTally
      rw [List.foldl_append]
      rfl
    rw [hstep]
    by_cases hv : vt.1 ∈ aliveIds ∧ vt.2 ∈ aliveIds
    · rw [if_pos hv]
      obtain ⟨hnd, hmem⟩ := ih
      obtain ⟨hnd2, hmem2⟩ := addTally_mem (buildTally aliveIds votes) vt.2
        (cntVotes aliveIds votes) hnd hmem
      refine ⟨hnd2, ?_⟩
      intro t c
      rw [hmem2 t c]
      rw [cntVotes_append aliveIds votes vt t]
      by_cases ht : t = vt.2
      · rw [if_pos ht, if_pos ⟨hv, ht.symm⟩]
      · rw [if_neg ht, if_neg (fun hc => ht hc.2.symm)]
    · rw [if_neg hv]
      obtain ⟨hnd, hmem⟩ := ih
      refine ⟨hnd, ?_⟩
      intro t c
      rw [hmem t c, cntVotes_append aliveIds votes vt t,
        if_neg (fun hc => hv hc.1)]
      simp

/-- The running maximum of the tally counts. -/
def maxCnt (T : List (Nat × Nat)) : Nat :=
  T.foldl (fun m e => Nat.max m e.2) 0

/-- `maxCnt` over one more entry. -/
theorem maxCnt_append (T : List (Nat × Nat)) (e : Nat × Nat) :
    maxCnt (T ++ [e]) = Nat.max (maxCnt T) e.2 := by
  unfold maxCnt
  rw [List.foldl_append]
  rfl

/-- Every tally count is at most the maximum. -/
theorem le_maxCnt (T : List (Nat × Nat)) : ∀ e ∈ T, e.2 ≤ maxCnt T := by
  induction T using List.reverseRecOn with
  | nil => intro e he; cases he
  | append_singleton T x ih =>
    intro e he
    rw [maxCnt_append]
    rcases List.mem_append.mp he with h | h
    · exact le_trans (ih e h) (Nat.le_max_left _ _)
    · rw [List.mem_singleton.mp h]
      exact Nat.le_max_right _ _

/-- A nonempty tally attains its maximum. -/
theorem maxCnt_attained (T : List (Nat × Nat)) (h : T ≠ []) :
    ∃ e ∈ T, e.2 = maxCnt T := by
  induction T using List.reverseRecOn with
  | nil => exact absurd rfl h
  | append_singleton T x ih =>
    rw [maxCnt_append]
    by_cases hT : T = []
    · subst hT
      exact ⟨x, by simp, by simp [maxCnt]⟩
    · obtain ⟨e, he, hmax⟩ := ih hT
      by_cases hcmp : x.2 ≤ maxCnt T
      · refine ⟨e, List.mem_append.mpr (Or.inl he), ?_⟩
        have hmx : (maxCnt T).max x.2 = maxCnt T := Nat.max_eq_left hcmp
        rw [hmx, hmax]
      · refine ⟨x, List.mem_append.mpr (Or.inr (by simp)), ?_⟩
        have hmx : (maxCnt T).max x.2 = x.2 := Nat.max_eq_right (by omega)
        rw [hmx]

/-- The maximum/tie scan of `resolveVote`, characterised: it returns the
maximum count, the tie flag says whether at least two entries attain it, and
absent a tie on a nonempty tally the scanned `eliminatedId` is an entry
attaining the maximum. -/
theorem tallyLoop_spec (T : List (Nat × Nat)) (hpos : ∀ e ∈ T, 0 < e.2) :
    (tallyLoop T).1 = maxCnt T
    ∧ ((tallyLoop T).2.2 = true ↔
        2 ≤ (T.filter (fun e => e.2 == maxCnt T)).length)
    ∧ ((tallyLoop T).2.2 = false → T ≠ [] →
        ∃ t, (tallyLoop T).2.1 = some t ∧ (t, maxCnt T) ∈ T) := by
  induction T using List.reverseRecOn with
  | nil =>
    refine ⟨rfl, by simp [tallyLoop, maxCnt], ?_⟩
    intro _ h
    exact absurd rfl h
  | append_singleton T x ih =>
    have hpos' : ∀ e ∈ T, 0 < e.2 := fun e he =>
      hpos e (List.mem_append.mpr (Or.inl he))
    have hxpos : 0 < x.2 := hpos x (List.mem_append.mpr (Or.inr (by simp)))
    obtain ⟨ih1, ih2, ih3⟩ := ih hpos'
    have hloop : tallyLoop (T ++ [x]) = tallyStep (tallyLoop T) x := by
      unfold tallyLoop
      rw [List.foldl_append]
      rfl
    rw [hloop, maxCnt_append]
    rcases Nat.lt_trichotomy (maxCnt T) x.2 with hcmp | hcmp | hcmp
    · -- a strictly larger count: fresh unique maximum
      have hstep : tallyStep (tallyLoop T) x = (x.2, some x.1, false) := by
        unfold tallyStep
        rw [ih1, if_pos hcmp]
      have hmx : (maxCnt T).max x.2 = x.2 := Nat.max_eq_right (by omega)
      rw [hstep, hmx]
      have hfilter : (T ++ [x]).filter (fun e => e.2 == x.2) = [x] := by
        rw [List.filter_append]
        have h1 : T.filter (fun e => e.2 == x.2) = [] := by
          rw [List.filter_eq_nil]
          intro e he
          have := le_maxCnt T e he
          simp only [beq_iff_eq]
          omega
        rw [h1]
        simp
      refine ⟨rfl, ?_, ?_⟩
      · rw [hfilter]
        simp
      · intro _ _
        exact ⟨x.1, rfl, List.mem_append.mpr (Or.inr (by simp))⟩
    · -- an equal count: a tie at the maximum
      have hstep : tallyStep (tallyLoop T) x
          = ((tallyLoop T).1, (tallyLoop T).2.1, true) := by
        unfold tallyStep
        rw [ih1, if_neg (by omega), if_pos ⟨hcmp.symm, by omega⟩]
      have hmx : (maxCnt T).max x.2 = maxCnt T := Nat.max_eq_left (by omega)
      rw [hstep, hmx]
      have hTne : T ≠ [] := by
        intro hT
        rw [hT] at hcmp
        simp [maxCnt] at hcmp
        omega
      obtain ⟨e0, he0, he0m⟩ := maxCnt_attained T hTne
      have hfilter : 1 ≤ (T.filter (fun e => e.2 == maxCnt T)).length := by
        have : e0 ∈ T.filter (fun e => e.2 == maxCnt T) :=
          List.mem_filter.mpr ⟨he0, by simp [he0m]⟩
        exact List.length_pos_of_mem this
      refine ⟨ih1, ?_, ?_⟩
      · rw [List.filter_append]
        have hx : [x].filter (fun e => e.2 == maxCnt T) = [x] := by
          simp [hcmp]
        rw [hx, List.length_append]
        simp only [List.length_singleton]
        constructor
        · intro _
          omega
        · intro _
          trivial
      · intro hfalse _
        cases hfalse
    · -- a smaller count: nothing changes
      have hstep : tallyStep (tallyLoop T) x = tallyLoop T := by
        unfold tallyStep
        rw [ih1, if_neg (by omega), if_neg (by rintro ⟨h1, _⟩; omega)]
      have hmx : (maxCnt T).max x.2 = maxCnt T := Nat.max_eq_left (by omega)
      rw [hstep, hmx]
      have hTne : T ≠ [] := by
        intro hT
        rw [hT] at hcmp
        simp [maxCnt] at hcmp
      have hfx : [x].filter (fun e => e.2 == maxCnt T) = [] := by
        rw [List.filter_eq_nil]
        intro e he
        rw [List.mem_singleton] at he
        subst he
        simp only [beq_iff_eq]
        omega
      refine ⟨ih1, ?_, ?_⟩
      · rw [List.filter_append, hfx, List.length_append]
        simpa using ih2
      · intro hfalse _
        obtain ⟨t, ht1, ht2⟩ := ih3 hfalse hTne
        exact ⟨t, ht1, List.mem_append.mpr (Or.inl ht2)⟩

/-- A duplicate-free list whose members are all one value has at most one
member. -/
theorem nodup_const_length_le_one {α : Type} (l : List α) (a : α)
    (hnd : l.Nodup) (hall : ∀ x ∈ l, x = a) : l.length ≤ 1 := by
  match l with
  | [] => simp
  | [x] => simp
  | x :: y :: rest =>
    exfalso
    have hx : x = a := hall x (by simp)
    have hy : y = a := hall y (by simp)
    rw [List.nodup_cons] at hnd
    exact hnd.1 (by rw [hx, ← hy]; simp)

/-- Two distinct members force length at least two. -/
theorem two_mem_le_length {α : Type} [DecidableEq α] (l : List α) (a b : α)
    (hne : b ≠ a) (ha : a ∈ l) (hb : b ∈ l) : 2 ≤ l.length := by
  have h1 : b ∈ l.erase a := (List.mem_erase_of_ne hne).mpr hb
  have h2 := List.length_erase_of_mem ha
  have h3 : 0 < (l.erase a).length := List.length_pos_of_mem h1
  omega

/-- When one target holds a strict positive maximum of the valid votes,
`resolveVote`'s scan eliminates exactly that target. -/
theorem eliminatedOf_unique_max (aliveIds : List Nat)
    (votes : List (Nat × Nat)) (t : Nat)
    (hpos : 0 < cntVotes aliveIds votes t)
    (huniq : ∀ u, u ≠ t →
      cntVotes aliveIds votes u < cntVotes aliveIds votes t) :
    eliminatedOf aliveIds votes = some t := by
  unfold eliminatedOf
  dsimp only
  obtain ⟨hnd, hmem⟩ := buildTally_mem aliveIds votes
  generalize hgen : buildTally aliveIds votes = T at hnd hmem ⊢
  have hposT : ∀ e ∈ T, 0 < e.2 := by
    intro e he
    have h1 := (hmem e.1 e.2).mp (by simpa using he)
    omega
  obtain ⟨hl1, hl2, hl3⟩ := tallyLoop_spec T hposT
  have htT : (t, cntVotes aliveIds votes t) ∈ T :=
    (hmem t (cntVotes aliveIds votes t)).mpr ⟨hpos, rfl⟩
  have hTne : T ≠ [] := by
    intro h0
    rw [h0] at htT
    cases htT
  have hmax : maxCnt T = cntVotes aliveIds votes t := by
    have hle : cntVotes aliveIds votes t ≤ maxCnt T := le_maxCnt T _ htT
    obtain ⟨e, he, hem⟩ := maxCnt_attained T hTne
    have h1 := (hmem e.1 e.2).mp (by simpa using he)
    by_cases heu : e.1 = t
    · rw [heu] at h1
      omega
    · have h2 := huniq e.1 heu
      omega
  have hfl : (T.filter (fun e => e.2 == maxCnt T)).length = 1 := by
    have hmemf : (t, cntVotes aliveIds votes t)
        ∈ T.filter (fun e => e.2 == maxCnt T) :=
      List.mem_filter.mpr ⟨htT, by simp [hmax]⟩
    have hge : 0 < (T.filter (fun e => e.2 == maxCnt T)).length :=
      List.length_pos_of_mem hmemf
    have hkall : ∀ k ∈ (T.filter (fun e => e.2 == maxCnt T)).map Prod.fst,
        k = t := by
      intro k hk
      obtain ⟨e, he2, hek⟩ := List.mem_map.mp hk
      obtain ⟨heT, hef⟩ := List.mem_filter.mp he2
      have h1 := (hmem e.1 e.2).mp (by simpa using heT)
      have he2m : e.2 = maxCnt T := by simpa using hef
      rw [← hek]
      by_contra hne
      have h2 := huniq e.1 hne
      omega
    have hknd : ((T.filter (fun e => e.2 == maxCnt T)).map Prod.fst).Nodup :=
      hnd.sublist ((List.filter_sublist T).map Prod.fst)
    have hle1 := nodup_const_length_le_one _ t hknd hkall
    rw [List.length_map] at hle1
    omega
  have htie : (tallyLoop T).2.2 = false := by
    cases hb : (tallyLoop T).2.2
    · rfl
    · have h2 := hl2.mp hb
      omega
  obtain ⟨t2, helim, hmem2⟩ := hl3 htie hTne
  have ht2 : t2 = t := by
    by_contra hne
    have h2 := (hmem t2 (maxCnt T)).mp hmem2
    have h3 := huniq t2 hne
    omega
  rw [htie]
  simp only [Bool.false_eq_true, if_false]
  rw [helim, ht2]

/-- When every positively-voted target is matched or beaten by some other
target (any tie at the maximum, and in particular no valid votes at all),
`resolveVote`'s scan eliminates nobody. -/
theorem eliminatedOf_tie (aliveIds : List Nat) (votes : List (Nat × Nat))
    (htie : ∀ t, 0 < cntVotes aliveIds votes t →
      ∃ u, u ≠ t ∧ cntVotes aliveIds votes t ≤ cntVotes aliveIds votes u) :
    eliminatedOf aliveIds votes = none := by
  unfold eliminatedOf
  dsimp only
  obtain ⟨hnd, hmem⟩ := buildTally_mem aliveIds votes
  generalize hgen : buildTally aliveIds votes = T at hnd hmem ⊢
  have hposT : ∀ e ∈ T, 0 < e.2 := by
    intro e he
    have h1 := (hmem e.1 e.2).mp (by simpa using he)
    omega
  obtain ⟨hl1, hl2, hl3⟩ := tallyLoop_spec T hposT
  by_cases hTe : T = []
  · subst hTe
    simp [tallyLoop]
  · obtain ⟨e0, he0, he0m⟩ := maxCnt_attained T hTe
    have h0 := (hmem e0.1 e0.2).mp (by simpa using he0)
    obtain ⟨u, hu, hcu⟩ := htie e0.1 (by omega)
    have hcup : 0 < cntVotes aliveIds votes u := by omega
    have huT : (u, cntVotes aliveIds votes u) ∈ T :=
      (hmem u (cntVotes aliveIds votes u)).mpr ⟨hcup, rfl⟩
    have hle : cntVotes aliveIds votes u ≤ maxCnt T := le_maxCnt T _ huT
    have hcueq : cntVotes aliveIds votes u = maxCnt T := by omega
    have hm1 : e0 ∈ T.filter (fun e => e.2 == maxCnt T) :=
      List.mem_filter.mpr ⟨he0, by simp [he0m]⟩
    have hm2 : (u, cntVotes aliveIds votes u)
        ∈ T.filter (fun e => e.2 == maxCnt T) :=
      List.mem_filter.mpr ⟨huT, by simp [hcueq]⟩
    have hne : (u, cntVotes aliveIds votes u) ≠ e0 := by
      intro heq
      apply hu
      rw [← heq]
    have h2le := two_mem_le_length _ e0 (u, cntVotes aliveIds votes u)
      hne hm1 hm2
    have hbtie : (tallyLoop T).2.2 = true := hl2.mpr h2le
    rw [hbtie]
    simp

/-- C3: vote resolution first discards every vote whose voter or target is
not alive at tally time, then tallies the remainder by target.  When one
target has a unique positive maximum, exactly that target's `isAlive` is set
false and it is recorded as eliminated; under any tie at the maximum —
including no valid votes at all — nobody is eliminated and every `isAlive`
is unchanged. -/
theorem resolveVote_tally_rule (now nightSec : Nat) (r : Room) :
    (∀ t, 0 < cntVotes ((r.players.filter (fun p => p.isAlive)).map
          (fun p => p.id)) r.vote.votes t →
       (∀ u, u ≠ t →
          cntVotes ((r.players.filter (fun p => p.isAlive)).map
            (fun p => p.id)) r.vote.votes u
            < cntVotes ((r.players.filter (fun p => p.isAlive)).map
                (fun p => p.id)) r.vote.votes t) →
       ((resolveVote now nightSec r).players.map (fun p => (p.id, p.isAlive))
          = r.players.map (fun p =>
              (p.id, if p.id = t then false else p.isAlive))
        ∧ (resolveVote now nightSec r).vote.eliminatedPlayerId = some t))
    ∧ ((∀ t, 0 < cntVotes ((r.players.filter (fun p => p.isAlive)).map
          (fun p => p.id)) r.vote.votes t →
        ∃ u, u ≠ t
          ∧ cntVotes ((r.players.filter (fun p => p.isAlive)).map
              (fun p => p.id)) r.vote.votes t
            ≤ cntVotes ((r.players.filter (fun p => p.isAlive)).map
                (fun p => p.id)) r.vote.votes u) →
       ((resolveVote now nightSec r).players.map (fun p => (p.id, p.isAlive))
          = r.players.map (fun p => (p.id, p.isAlive))
        ∧ (resolveVote now nightSec r).vote.eliminatedPlayerId = none)) := by
  constructor
  · intro t hpos huniq
    have helim : eliminatedOf ((r.players.filter (fun p => p.isAlive)).map
        (fun p => p.id)) r.vote.votes = some t :=
      eliminatedOf_unique_max _ _ t hpos huniq
    constructor
    · rw [resolveVote_players, List.map_map]
      refine List.map_congr_left ?_
      intro p _
      by_cases hpt : p.id = t
      · simp [Function.comp, helim, hpt]
      · have hne : ¬(t = p.id) := fun hc => hpt hc.symm
        simp [Function.comp, helim, hpt, hne]
    · rw [resolveVote_eliminated, helim]
  · intro htie
    have helim : eliminatedOf ((r.players.filter (fun p => p.isAlive)).map
        (fun p => p.id)) r.vote.votes = none :=
      eliminatedOf_tie _ _ htie
    constructor
    · rw [resolveVote_players, List.map_map]
      refine List.map_congr_left ?_
      intro p _
      simp [Function.comp, helim]
    · rw [resolveVote_eliminated, helim]

/-- A vote-phase room matching scenario C of the spec: four alive players,
votes 1→4, 2→4, 3→3 and one abstention. -/
def voteRoom : Room :=
  { status := Status.playing, phase := Phase.vote, phaseEndsAtMs := some 100,
    vote := { started := true, votes := [(1, 4), (2, 4), (3, 3)] },
    players := [{ id := 1, role := Role.mafia },
                { id := 2, role := Role.citizen },
                { id := 3, role := Role.citizen },
                { id := 4, role := Role.citizen }] }

/-- Witness for `resolveVote_tally_rule` on `voteRoom`: player 4 takes two of
the three valid votes and is eliminated. -/
theorem resolveVote_tally_rule_witness :
    (resolveVote 0 60 voteRoom).players.map (fun p => (p.id, p.isAlive))
      = voteRoom.players.map (fun p =>
          (p.id, if p.id = 4 then false else p.isAlive))
    ∧ (resolveVote 0 60 voteRoom).vote.eliminatedPlayerId = some 4 := by
  refine (resolveVote_tally_rule 0 60 voteRoom).1 4 (by decide) ?_
  intro u hu
  have h4 : cntVotes ((voteRoom.players.filter (fun p => p.isAlive)).map
      (fun p => p.id)) voteRoom.vote.votes 4 = 2 := by decide
  rw [h4]
  have hval : voteRoom.vote.votes.filter (fun vt =>
      decide (vt.1 ∈ (voteRoom.players.filter (fun p => p.isAlive)).map
        (fun p => p.id))
      && decide (vt.2 ∈ (voteRoom.players.filter (fun p => p.isAlive)).map
        (fun p => p.id))) = [(1, 4), (2, 4), (3, 3)] := by decide
  unfold cntVotes
  rw [hval]
  by_cases h3 : u = 3
  · subst h3
    decide
  · have hb4 : ((4 : Nat) == u) = false := by
      simp only [beq_eq_false_iff_ne, ne_eq]
      exact fun hc => hu hc.symm
    have hb3 : ((3 : Nat) == u) = false := by
      simp only [beq_eq_false_iff_ne, ne_eq]
      exact fun hc => h3 hc.symm
    simp [List.filter_cons, hb4, hb3]
